import Mathlib

/-!
Verification development for the safe-evaluation core of
`src/Python/simple_calculator.py`.

Modelling conventions:

* Python floats are modelled by `PyFloat`: an exact rational (`finite q`)
  or one of the IEEE special values `inf`, `ninf`, `nan`.  Signed zeros are
  collapsed to the single rational `0`.  Arithmetic on finite values is exact
  where CPython rounds to the nearest double; every concrete input appearing
  in a theorem below is computed exactly by CPython as well, so the theorems
  are insensitive to this abstraction.
* Python exceptions are modelled by `PyExc`.  A run of the evaluator either
  returns a value, raises the calculator's own `EvalError` exception (with a
  structured message, `EvalMsg`, one constructor per raise site of the
  source), or lets some other exception escape (`PyErr.uncaught`), which is
  an uncaught crash of `evaluate_expression`.
* Calls into CPython's `math` module return irrational doubles in general,
  which a rational model cannot hold, so the behaviour of
  `float(getattr(math, name)(*args))` is a parameter (`MathSem.mathFn`) of
  the evaluator, as is the value of `a ** b` for a non-integer exponent
  (`MathSem.powFrac`).  The concrete instance `cpySem` used by closed
  theorems is documented at every point a theorem relies on.
-/

namespace SimpleCalc

/-- The Python exception classes that can arise in the calculator's code. -/
inductive PyExc where
  | zeroDivisionError
  | overflowError
  | valueError
  | typeError
  | attributeError
  | indexError
deriving DecidableEq

/-- The messages of the `EvalError` exceptions raised by `safe_eval` and
`evaluate_expression`, one constructor per `raise` site of the source. -/
inductive EvalMsg where
  /-- line 66: `Unsupported constant type: ...` -/
  | unsupportedConstant (typeName : String)
  /-- line 81: `Undefined variable: ...` -/
  | undefinedVariable (varName : String)
  /-- line 89: `Operator ... not allowed` -/
  | operatorNotAllowed (opName : String)
  /-- line 93: `Error evaluating binary op: ...` -/
  | binOpError (detail : PyExc)
  /-- line 100: `Unary operator ... not allowed` -/
  | unaryNotAllowed (opName : String)
  /-- line 124: `Error calling ...: ...` -/
  | callError (funcName : String) (detail : PyExc)
  /-- line 125: `Function calls are not allowed except math functions: ...` -/
  | disallowedFunction (msg : String)
  /-- line 141: `Syntax error: ...` (raised by `evaluate_expression`) -/
  | syntaxError (msg : String)
  /-- line 133: `Unsupported AST node: ...` — dead code, see `safe_eval` below. -/
  | unsupportedNode (nodeName : String)
deriving DecidableEq

/-- Result of running a piece of the calculator: either the calculator's own
`EvalError` (with its structured message) or some other exception escaping
uncaught. -/
inductive PyErr where
  | evalError (msg : EvalMsg)
  | uncaught (exc : PyExc)
deriving DecidableEq

/-- A Python double: exact rational or IEEE special value.  Signed zeros are
collapsed onto the rational `0`. -/
inductive PyFloat where
  | finite (q : ℚ)
  | inf
  | ninf
  | nan
deriving DecidableEq

/-- The value carried by an `ast.Constant` node. -/
inductive PyConst where
  | int (n : ℤ)
  | float (q : ℚ)
  | bool (b : Bool)
  | str (s : String)
  | none
deriving DecidableEq

/-- Models `isinstance(node.value, (int, float))` at line 64.  Python's
`bool` is a subclass of `int`, so boolean constants pass this check. -/
def isIntOrFloat : PyConst → Bool
  | .int _ => true
  | .float _ => true
  | .bool _ => true
  | _ => false

/-- `type(node.value).__name__` for the constant payloads. -/
def pyTypeName : PyConst → String
  | .int _ => "int"
  | .float _ => "float"
  | .bool _ => "bool"
  | .str _ => "str"
  | .none => "NoneType"

/-- `float(node.value)` for an int/float/bool constant (line 65); the
remaining cases are unreachable because they are guarded by
`isIntOrFloat`. -/
def constFloat : PyConst → PyFloat
  | .int n => .finite n
  | .float q => .finite q
  | .bool b => .finite (if b then 1 else 0)
  | _ => .finite 0

/-- The binary operator classes `ast.parse` can put into an `ast.BinOp`
node in `eval` mode. -/
inductive BinOpKind where
  | add | sub | mult | div | mod | pow | floorDiv
  | bitAnd | bitOr | bitXor | lshift | rshift | matMult
deriving DecidableEq

/-- `type(node.op).__name__` for binary operators. -/
def binOpName : BinOpKind → String
  | .add => "Add"
  | .sub => "Sub"
  | .mult => "Mult"
  | .div => "Div"
  | .mod => "Mod"
  | .pow => "Pow"
  | .floorDiv => "FloorDiv"
  | .bitAnd => "BitAnd"
  | .bitOr => "BitOr"
  | .bitXor => "BitXor"
  | .lshift => "LShift"
  | .rshift => "RShift"
  | .matMult => "MatMult"

/-- The unary operator classes `ast.parse` can put into an `ast.UnaryOp`
node in `eval` mode. -/
inductive UnaryKind where
  | uadd | usub | notOp | invert
deriving DecidableEq

/-- `type(node.op).__name__` for unary operators. -/
def unaryName : UnaryKind → String
  | .uadd => "UAdd"
  | .usub => "USub"
  | .notOp => "Not"
  | .invert => "Invert"

mutual
/-- The syntax trees `ast.parse(expr, mode="eval")` can produce, restricted
to the node kinds that are relevant to the calculator (the kinds the
evaluator inspects plus the expression kinds outside the calculator's
grammar that the claims mention: comparison, boolean logic, list literals,
attribute access, index access, lambda).  Call arguments use the mutual
`ASTList` so that the evaluator is structurally recursive. -/
inductive AST where
  | expression (body : AST)
  | constant (value : PyConst)
  | num (value : ℚ)
  | name (id : String)
  | binOp (op : BinOpKind) (left : AST) (right : AST)
  | unaryOp (op : UnaryKind) (operand : AST)
  | call (func : AST) (args : ASTList)
  | expr (value : AST)
  | compare (left : AST) (comparators : List AST)
  | boolOp (values : List AST)
  | listLit (elts : List AST)
  | attributeRef (value : AST) (attrName : String)
  | subscript (value : AST) (slice : AST)
  | lambda (body : AST)

/-- Argument lists of `call` nodes. -/
inductive ASTList where
  | nil
  | cons (head : AST) (tail : ASTList)
end

/-- The semantic parameter of the evaluator: behaviour of the library
operations whose results are irrational in general and therefore live
outside the exact rational model. -/
structure MathSem where
  /-- Value of `a ** b` for finite `a`, finite non-integer exponent `b`
  (irrational, or complex for negative `a`). -/
  powFrac : ℚ → ℚ → Except PyExc PyFloat
  /-- Behaviour of `float(getattr(math, name)(*args))` for the 16 allowed
  functions that are looked up on the `math` module, including the
  `TypeError` Python raises on an arity mismatch, `ValueError` on a domain
  error and `OverflowError` on overflow. -/
  mathFn : String → List PyFloat → Except PyExc PyFloat

/-- Natural-number power on `ℚ` by structural recursion (kernel-reducible;
equal to `a ^ n`, see `qpow_eq`). -/
def qpow (a : ℚ) : ℕ → ℚ
  | 0 => 1
  | n + 1 => a * qpow a n

/-- Integer power on `ℚ` (kernel-reducible; equal to `a ^ n`, see
`qzpow_eq`). -/
def qzpow (a : ℚ) : ℤ → ℚ
  | .ofNat m => qpow a m
  | .negSucc m => (qpow a (m + 1))⁻¹

/-- Round to nearest, ties to even: the rounding of Python's builtin
`round` on a float with one argument. -/
def roundHE (q : ℚ) : ℤ :=
  if q - Rat.floor q < 1/2 then Rat.floor q
  else if 1/2 < q - Rat.floor q then Rat.floor q + 1
  else if Rat.floor q % 2 = 0 then Rat.floor q else Rat.floor q + 1

/-- Python's `int()` conversion of a finite float: truncation toward 0. -/
def pytrunc (q : ℚ) : ℤ := if 0 ≤ q then Rat.floor q else -Rat.floor (-q)

/-- `a + b` on Python floats. -/
def pyAdd : PyFloat → PyFloat → Except PyExc PyFloat
  | .finite a, .finite b => .ok (.finite (a + b))
  | .nan, _ => .ok .nan
  | _, .nan => .ok .nan
  | .inf, .ninf => .ok .nan
  | .ninf, .inf => .ok .nan
  | .inf, _ => .ok .inf
  | _, .inf => .ok .inf
  | .ninf, _ => .ok .ninf
  | _, .ninf => .ok .ninf

/-- `a - b` on Python floats. -/
def pySub : PyFloat → PyFloat → Except PyExc PyFloat
  | .finite a, .finite b => .ok (.finite (a - b))
  | .nan, _ => .ok .nan
  | _, .nan => .ok .nan
  | .inf, .inf => .ok .nan
  | .ninf, .ninf => .ok .nan
  | .inf, _ => .ok .inf
  | _, .inf => .ok .ninf
  | .ninf, _ => .ok .ninf
  | _, .ninf => .ok .inf

/-- `a * b` on Python floats (`inf * 0` is `nan`). -/
def pyMul : PyFloat → PyFloat → Except PyExc PyFloat
  | .finite a, .finite b => .ok (.finite (a * b))
  | .nan, _ => .ok .nan
  | _, .nan => .ok .nan
  | .inf, .finite b =>
      .ok (if b = 0 then .nan else if 0 < b then .inf else .ninf)
  | .ninf, .finite b =>
      .ok (if b = 0 then .nan else if 0 < b then .ninf else .inf)
  | .finite a, .inf =>
      .ok (if a = 0 then .nan else if 0 < a then .inf else .ninf)
  | .finite a, .ninf =>
      .ok (if a = 0 then .nan else if 0 < a then .ninf else .inf)
  | .inf, .inf => .ok .inf
  | .inf, .ninf => .ok .ninf
  | .ninf, .inf => .ok .ninf
  | .ninf, .ninf => .ok .inf

/-- `a / b` on Python floats.  CPython raises `ZeroDivisionError` whenever
the divisor compares equal to `0.0`, before any IEEE rule applies — float
division by zero does NOT produce an IEEE special value in Python. -/
def pyDiv : PyFloat → PyFloat → Except PyExc PyFloat
  | a, .finite b =>
      if b = 0 then .error .zeroDivisionError
      else
        match a with
        | .finite a' => .ok (.finite (a' / b))
        | .inf => .ok (if 0 < b then .inf else .ninf)
        | .ninf => .ok (if 0 < b then .ninf else .inf)
        | .nan => .ok .nan
  | .finite _, .inf => .ok (.finite 0)
  | .finite _, .ninf => .ok (.finite 0)
  | .nan, _ => .ok .nan
  | _, _ => .ok .nan

/-- `a % b` on Python floats.  On finite operands with `b ≠ 0` the result is
`a - b * ⌊a / b⌋` (C `fmod` adjusted so that a nonzero result takes the
sign of the divisor, which is exactly the flooring formula on exact
values); a zero divisor raises `ZeroDivisionError`. -/
def pyMod : PyFloat → PyFloat → Except PyExc PyFloat
  | a, .finite b =>
      if b = 0 then .error .zeroDivisionError
      else
        match a with
        | .finite a' => .ok (.finite (a' - b * Rat.floor (a' / b)))
        | .nan => .ok .nan
        | _ => .ok .nan
  | .finite a, .inf => .ok (if 0 ≤ a then .finite a else .inf)
  | .finite a, .ninf => .ok (if a ≤ 0 then .finite a else .ninf)
  | _, _ => .ok .nan

/-- `a // b` on Python floats: `floor(a / b)` as a float; a zero divisor
raises `ZeroDivisionError`. -/
def pyFloorDiv : PyFloat → PyFloat → Except PyExc PyFloat
  | a, .finite b =>
      if b = 0 then .error .zeroDivisionError
      else
        match a with
        | .finite a' => .ok (.finite (Rat.floor (a' / b) : ℤ))
        | _ => .ok .nan
  | .finite a, .inf => .ok (if 0 ≤ a then .finite 0 else .finite (-1))
  | .finite a, .ninf => .ok (if a ≤ 0 then .finite 0 else .finite (-1))
  | _, _ => .ok .nan

/-- `a ** b` on Python floats.  Exact for integer exponents (with CPython's
`ZeroDivisionError` for `0.0 ** negative`); for a non-integer exponent the
result is irrational (or a complex number when the base is negative), which
is outside the rational model and thus delegated to `γ.powFrac`. -/
def pyPow (γ : MathSem) : PyFloat → PyFloat → Except PyExc PyFloat
  | a, .finite b =>
      if b = 0 then .ok (.finite 1)
      else
        match a with
        | .nan => .ok .nan
        | .finite a' =>
            if a' = 1 then .ok (.finite 1)
            else if b.den = 1 then
              if a' = 0 ∧ b < 0 then .error .zeroDivisionError
              else .ok (.finite (qzpow a' b.num))
            else if a' = 0 ∧ b < 0 then .error .zeroDivisionError
            else if a' = 0 then .ok (.finite 0)
            else γ.powFrac a' b
        | .inf => .ok (if 0 < b then .inf else .finite 0)
        | .ninf =>
            if 0 < b then
              .ok (if b.den = 1 ∧ b.num % 2 = 1 then .ninf else .inf)
            else .ok (.finite 0)
  | a, .nan => if a = .finite 1 then .ok (.finite 1) else .ok .nan
  | a, .inf =>
      match a with
      | .finite a' =>
          .ok (if a' = 1 ∨ a' = -1 then .finite 1
               else if 1 < |a'| then .inf else .finite 0)
      | .nan => .ok .nan
      | _ => .ok .inf
  | a, .ninf =>
      match a with
      | .finite a' =>
          .ok (if a' = 1 ∨ a' = -1 then .finite 1
               else if 1 < |a'| then .finite 0 else .inf)
      | .nan => .ok .nan
      | _ => .ok (.finite 0)

/-- `+a` on Python floats (identity). -/
def pyPos : PyFloat → PyFloat := fun a => a

/-- `-a` on Python floats. -/
def pyNeg : PyFloat → PyFloat
  | .finite q => .finite (-q)
  | .inf => .ninf
  | .ninf => .inf
  | .nan => .nan

/-- `abs(a)` on Python floats. -/
def pyAbs : PyFloat → PyFloat
  | .finite q => .finite |q|
  | .nan => .nan
  | _ => .inf

/-- `float(round(a))` for a Python float: round-half-to-even to an integer.
`round(nan)` raises `ValueError`, `round(±inf)` raises `OverflowError`. -/
def pyRound : PyFloat → Except PyExc PyFloat
  | .finite q => .ok (.finite (roundHE q))
  | .nan => .error .valueError
  | _ => .error .overflowError

/-- The `ALLOWED_BINARY_OPS` dictionary (lines 39–47): `dict.get` on the
type of the operator. -/
def ALLOWED_BINARY_OPS (γ : MathSem) :
    BinOpKind → Option (PyFloat → PyFloat → Except PyExc PyFloat)
  | .add => some pyAdd
  | .sub => some pySub
  | .mult => some pyMul
  | .div => some pyDiv
  | .mod => some pyMod
  | .pow => some (pyPow γ)
  | .floorDiv => some pyFloorDiv
  | _ => Option.none

/-- The `ALLOWED_UNARY_OPS` dictionary (lines 49–52). -/
def ALLOWED_UNARY_OPS : UnaryKind → Option (PyFloat → PyFloat)
  | .uadd => some pyPos
  | .usub => some pyNeg
  | _ => Option.none

/-- The exact rational value of the double `math.pi`. -/
def piQ : ℚ := 884279719003555 / 281474976710656

/-- The exact rational value of the double `math.e`. -/
def eQ : ℚ := 6121026514868073 / 2251799813685248

/-- The exact rational value of the double `math.tau` (twice `piQ`). -/
def tauQ : ℚ := 884279719003555 / 140737488355328

/-- The `constants` dictionary built at lines 73–78 of `safe_eval`:
`pi`, `e`, `tau`, `inf`. -/
def constants (nm : String) : Option PyFloat :=
  if nm = "pi" then some (.finite piQ)
  else if nm = "e" then some (.finite eQ)
  else if nm = "tau" then some (.finite tauQ)
  else if nm = "inf" then some .inf
  else Option.none

/-- The `allowed_functions` set (lines 105–109), in source order.
It contains 19 names. -/
def allowed_functions : List String :=
  ["sqrt", "sin", "cos", "tan", "log", "log10", "exp",
   "abs", "ceil", "floor", "round", "degrees", "radians",
   "asin", "acos", "atan", "sinh", "cosh", "tanh"]

/-- The value of `sorted(allowed_functions)` (Python sorts strings by code
points; all names here are ASCII so this is plain lexicographic order). -/
def sorted_allowed : List String :=
  ["abs", "acos", "asin", "atan", "ceil", "cos", "cosh", "degrees",
   "exp", "floor", "log", "log10", "radians", "round", "sin", "sinh",
   "sqrt", "tan", "tanh"]

/-- The message of the `EvalError` raised at line 125:
`"Function calls are not allowed except math functions: " +
", ".join(sorted(allowed_functions))`. -/
def disallowedMsg : String :=
  "Function calls are not allowed except math functions: " ++
    String.intercalate ", " sorted_allowed

/-- The `try`-block of the `Call` branch (lines 113–124) followed by the
`except (AttributeError, ValueError, TypeError)` filter.

The source's branch structure is
`if func_name == "round" and len(args) == 1: ... elif func_name == "abs":
... else: getattr(math, func_name)(*args)`; a `round` call whose argument
count is not 1 therefore falls into the `getattr` branch, where
`getattr(math, "round")` raises `AttributeError` (the `math` module has no
`round`).  An `abs` call takes `args[0]` whatever the argument count:
extra arguments are silently ignored, and an empty argument list raises
`IndexError`, which is NOT in the caught tuple and escapes uncaught. -/
def runCall (γ : MathSem) (id : String) (vs : List PyFloat) :
    Except PyErr PyFloat :=
  let body : Except PyExc PyFloat :=
    if id = "round" then
      match vs with
      | [v] => pyRound v
      | _ => .error .attributeError
    else if id = "abs" then
      match vs with
      | [] => .error .indexError
      | v :: _ => .ok (pyAbs v)
    else γ.mathFn id vs
  match body with
  | .ok v => .ok v
  | .error e =>
      if e = .attributeError ∨ e = .valueError ∨ e = .typeError then
        .error (.evalError (.callError id e))
      else .error (.uncaught e)

mutual
/-- `safe_eval` (lines 55–133), branch for branch in source order.

The final three branches of the source (lines 127–133) deserve a note:
after the `ast.Expr` branch, line 130 evaluates
`isinstance(node, ast.Paren)` — but the `ast` module has no attribute
`Paren` in any CPython version, so reaching that line raises an uncaught
`AttributeError`, and the `raise EvalError("Unsupported AST node: ...")`
at line 133 is dead code.  Consequently every node kind not handled by an
earlier branch (`Compare`, `BoolOp`, `List`, `Attribute`, `Subscript`,
`Lambda`, ...) crashes the evaluation with `AttributeError` instead of
producing an `EvalError`. -/
def safe_eval (γ : MathSem) : AST → Except PyErr PyFloat
  | .expression body => safe_eval γ body
  | .constant v =>
      if isIntOrFloat v then .ok (constFloat v)
      else .error (.evalError (.unsupportedConstant (pyTypeName v)))
  | .num q => .ok (.finite q)
  | .name id =>
      match constants id with
      | some v => .ok v
      | Option.none => .error (.evalError (.undefinedVariable id))
  | .binOp op l r =>
      match safe_eval γ l with
      | .error e => .error e
      | .ok a =>
          match safe_eval γ r with
          | .error e => .error e
          | .ok b =>
              match ALLOWED_BINARY_OPS γ op with
              | Option.none =>
                  .error (.evalError (.operatorNotAllowed (binOpName op)))
              | some f =>
                  match f a b with
                  | .ok v => .ok v
                  | .error exc => .error (.evalError (.binOpError exc))
  | .unaryOp op x =>
      match safe_eval γ x with
      | .error e => .error e
      | .ok a =>
          match ALLOWED_UNARY_OPS op with
          | Option.none =>
              .error (.evalError (.unaryNotAllowed (unaryName op)))
          | some f => .ok (f a)
  | .call f args =>
      match f with
      | .name id =>
          if id ∈ allowed_functions then
            match evalArgs γ args with
            | .error e => .error e
            | .ok vs => runCall γ id vs
          else .error (.evalError (.disallowedFunction disallowedMsg))
      | _ => .error (.evalError (.disallowedFunction disallowedMsg))
  | .expr v => safe_eval γ v
  | .compare _ _ => .error (.uncaught .attributeError)
  | .boolOp _ => .error (.uncaught .attributeError)
  | .listLit _ => .error (.uncaught .attributeError)
  | .attributeRef _ _ => .error (.uncaught .attributeError)
  | .subscript _ _ => .error (.uncaught .attributeError)
  | .lambda _ => .error (.uncaught .attributeError)

/-- The list comprehension `[safe_eval(arg) for arg in node.args]` at line
112 (outside the `try`, so an `EvalError` from an argument propagates as
is). -/
def evalArgs (γ : MathSem) : ASTList → Except PyErr (List PyFloat)
  | .nil => .ok []
  | .cons a as =>
      match safe_eval γ a with
      | .error e => .error e
      | .ok v =>
          match evalArgs γ as with
          | .error e => .error e
          | .ok vs => .ok (v :: vs)
end

/-- A partial model of `float(getattr(math, name)(*args))` for the math
functions the calculator can reach, faithful to CPython at every point
used by a theorem in this file:

* `exp x` for finite `x > 709`: the true result exceeds the largest double
  (`log(DBL_MAX) ≈ 709.78`), and `math.exp` raises `OverflowError`
  ("math range error").  The single point exercised is `x = 1000`.
* any of the unary math functions applied to an argument count different
  from 1 raises `TypeError` (Python call-arity failure).  The point
  exercised is `sqrt` with two arguments.
* `sqrt` of a finite negative argument raises `ValueError` ("math domain
  error").  The point exercised is `sqrt (-1)`.

At the remaining single-argument points CPython returns a finite double
that is irrational in general and has no exact rational representation;
no theorem in this file evaluates this model there, and those points are
mapped to a `ValueError` placeholder. -/
def cpyMathFn : String → List PyFloat → Except PyExc PyFloat
  | "exp", [.finite q] =>
      if 709 < q then .error .overflowError else .error .valueError
  | _, [_] => .error .valueError
  | _, _ => .error .typeError

/-- The concrete semantic parameter used by the closed theorems below.
`powFrac` is never evaluated by any theorem (no claim involves a
non-integer exponent); `mathFn` is `cpyMathFn`. -/
def cpySem : MathSem :=
  { powFrac := fun _ _ => .error .valueError
    mathFn := cpyMathFn }

/-! ### The formatter (`format_result`, lines 145–155) -/

/-- The decimal digit character for `d < 10`. -/
def digitChar (d : ℕ) : Char := Char.ofNat (48 + d)

/-- Render a big-endian list of decimal digits. -/
def digitsToStr (l : List ℕ) : String := String.mk (l.map digitChar)

/-- Little-endian decimal digits, by structural recursion on fuel
(kernel-reducible; agrees with `Nat.digits 10`, see `natDigits_eq`). -/
def natDigitsAux : ℕ → ℕ → List ℕ
  | 0, _ => []
  | _ + 1, 0 => []
  | f + 1, n + 1 => (n + 1) % 10 :: natDigitsAux f ((n + 1) / 10)

/-- Little-endian decimal digits of a natural number. -/
def natDigits (n : ℕ) : List ℕ := natDigitsAux (n + 1) n

/-- Python's `str` on a natural number. -/
def natStr (n : ℕ) : String :=
  if n = 0 then "0" else digitsToStr (natDigits n).reverse

/-- Python's `str` on an integer (the rendering of `str(int(result))` at
line 152). -/
def strInt (n : ℤ) : String :=
  if n < 0 then "-" ++ natStr n.natAbs else natStr n.natAbs

/-- The exponent suffix of printf-style `e`/`g` formats: a sign followed by
at least two digits. -/
def expStr (e : ℤ) : String :=
  (if e < 0 then "-" else "+") ++
    (if e.natAbs < 10 then "0" ++ natStr e.natAbs else natStr e.natAbs)

/-- Significant digits for `%.10g`: for `a > 0`, returns `(m, e)` with
`m` the 10 significant decimal digits of `a` (an integer in
`[10^9, 10^10)`, rounded half-to-even and renormalized when the rounding
carries into an eleventh digit) and `e` the decimal exponent. -/
def g10Aux (a : ℚ) : ℤ × ℤ :=
  if roundHE (a * qzpow 10 (9 - Int.log 10 a)) = 10 ^ 10
  then (10 ^ 9, Int.log 10 a + 1)
  else (roundHE (a * qzpow 10 (9 - Int.log 10 a)), Int.log 10 a)

/-- The significant digits of `%.10g` in big-endian order with trailing
zeros stripped. -/
def g10bds (a : ℚ) : List ℕ :=
  ((natDigits (g10Aux a).1.toNat).dropWhile (· == 0)).reverse

/-- The padded digit list of the fixed-notation branch of `%.10g`. -/
def g10padded (a : ℚ) : List ℕ :=
  g10bds a ++ List.replicate ((g10Aux a).2.toNat + 1 - (g10bds a).length) 0

/-- The magnitude part of `%.10g`: rendering of a nonnegative finite
value.  Round to 10 significant digits, strip trailing zeros, and use
fixed notation when the decimal exponent is in `[-4, 10)`, exponent
notation otherwise. -/
def g10mag (a : ℚ) : String :=
  if a = 0 then "0"
  else if -4 ≤ (g10Aux a).2 ∧ (g10Aux a).2 < 10 then
    if 0 ≤ (g10Aux a).2 then
      digitsToStr ((g10padded a).take ((g10Aux a).2.toNat + 1)) ++
        (if ((g10padded a).drop ((g10Aux a).2.toNat + 1)).isEmpty then ""
         else "." ++ digitsToStr ((g10padded a).drop ((g10Aux a).2.toNat + 1)))
    else
      "0." ++ digitsToStr (List.replicate (-((g10Aux a).2 + 1)).toNat 0) ++
        digitsToStr (g10bds a)
  else
    digitsToStr ((g10bds a).take 1) ++
      (if ((g10bds a).drop 1).isEmpty then ""
       else "." ++ digitsToStr ((g10bds a).drop 1)) ++
      "e" ++ expStr (g10Aux a).2

/-- Model of CPython's `f"{x:.10g}"` for a finite float `x` (line 155):
a sign followed by the rendering of the magnitude. -/
def formatG10 (q : ℚ) : String := (if q < 0 then "-" else "") ++ g10mag |q|

/-- Significant digits for `%.6e`: for `a > 0`, the 7 significant decimal
digits (an integer in `[10^6, 10^7)`, rounded half-to-even) and the
decimal exponent. -/
def e6Aux (a : ℚ) : ℤ × ℤ :=
  let e0 := Int.log 10 a
  let m0 := roundHE (a * qzpow 10 (6 - e0))
  if m0 = 10 ^ 7 then (10 ^ 6, e0 + 1) else (m0, e0)

/-- Model of CPython's `f"{x:.6e}"` for a finite float `x` (line 149):
normalized scientific notation with 6 digits after the decimal point. -/
def formatE6q (q : ℚ) : String :=
  if q = 0 then "0.000000e+00"
  else
    let sgn := if q < 0 then "-" else ""
    let p := e6Aux |q|
    let bds := (natDigits p.1.toNat).reverse
    sgn ++ digitsToStr (bds.take 1) ++ "." ++ digitsToStr (bds.drop 1) ++
      "e" ++ expStr p.2

/-- `f"{x:.6e}"` on all Python floats (the specials render as their
names). -/
def formatE6 : PyFloat → String
  | .finite q => formatE6q q
  | .inf => "inf"
  | .ninf => "-inf"
  | .nan => "nan"

/-- `format_result` (lines 145–155).

* `±inf` satisfies `abs(result) > 1e15` and goes to the `%.6e` branch
  (which renders `inf`/`-inf`).
* `nan` fails both comparisons of the first condition (IEEE comparisons
  with `nan` are false) and `nan != 0` is irrelevant; in the second
  branch `int(nan)` raises `ValueError` ("cannot convert float NaN to
  integer"), which nothing in `format_result` catches.
* On finite values the three branches follow the source: `%.6e` for
  `abs(result) > 1e15` or `0 < abs(result) < 1e-4`; `str(int(result))`
  when `abs(result - int(result)) < 1e-12` (`int` truncates toward 0);
  `%.10g` otherwise.

The boundary constants `1e-4` and `1e-12` are the rationals `1/10^4` and
`1/10^12` here; the corresponding doubles differ from them by less than
one part in `10^16`, and no double (hence no value of a run of the
calculator) lies between a boundary double and its rational
counterpart in a way any theorem below depends on. -/
def format_result : PyFloat → Except PyExc String
  | .inf => .ok (formatE6 .inf)
  | .ninf => .ok (formatE6 .ninf)
  | .nan => .error .valueError
  | .finite q =>
      .ok (if (10 : ℚ) ^ 15 < |q| ∨ (|q| < 1 / 10 ^ 4 ∧ q ≠ 0) then formatE6q q
           else if |q - (pytrunc q : ℚ)| < 1 / 10 ^ 12 then strInt (pytrunc q)
           else formatG10 q)

/-! ### The parser

The repository performs parsing by calling CPython's `ast.parse(expr,
mode="eval")` (line 139), which is not part of the repository's sources.
The grammar below is modelled from the spec (§4.1): standard arithmetic
expression syntax with additive, multiplicative, unary, power (binding
right-associatively) and grouping levels, integer and decimal literals,
bare identifiers as `ConstantRef` nodes and `identifier(arg, ...)` calls,
extended — faithfully to CPython's expression grammar — with comparison
chains, string literals and the keyword literals `True`/`False`/`None`
(which CPython parses in `eval` mode and which the claims exercise).
Inputs outside this subset (and statements such as assignments, which are
not expressions at all) produce a parse error, as they do in CPython's
`eval` mode, and `evaluate_expression` converts the `SyntaxError` into
`EvalError("Syntax error: ...")` (lines 138–141). -/

/-- Tokens of the expression language. -/
inductive Tok where
  | num (c : PyConst)
  | ident (s : String)
  | strTok (s : String)
  | op (s : String)
deriving DecidableEq

/-- Numeric value of a digit character. -/
def digitVal (c : Char) : ℕ := c.toNat - 48

/-- Decimal value of a digit run. -/
def digitsToNatCh (l : List Char) : ℕ :=
  l.foldl (fun a c => 10 * a + digitVal c) 0

/-- Identifier start characters. -/
def isIdentStart (c : Char) : Bool := c.isAlpha || c = '_'

/-- Identifier continuation characters. -/
def isIdentChar (c : Char) : Bool := c.isAlphanum || c = '_'

/-- The lexer (fuelled; the fuel is an upper bound on the number of
tokens and is always sufficient when called through `parseModel`). -/
def lex : ℕ → List Char → Except String (List Tok)
  | 0, _ => .error "lexer out of fuel"
  | _ + 1, [] => .ok []
  | f + 1, c :: cs =>
    if c = ' ' then lex f cs
    else if c.isDigit then
      let ds := (c :: cs).takeWhile Char.isDigit
      let r1 := (c :: cs).dropWhile Char.isDigit
      match r1 with
      | '.' :: r2 =>
          let fs := r2.takeWhile Char.isDigit
          let r3 := r2.dropWhile Char.isDigit
          match lex f r3 with
          | .error e => .error e
          | .ok ts => .ok (.num (.float ((digitsToNatCh ds : ℚ) +
              (digitsToNatCh fs : ℚ) / qpow 10 fs.length)) :: ts)
      | _ =>
          match lex f r1 with
          | .error e => .error e
          | .ok ts => .ok (.num (.int (digitsToNatCh ds)) :: ts)
    else if isIdentStart c then
      let ws := (c :: cs).takeWhile isIdentChar
      let r1 := (c :: cs).dropWhile isIdentChar
      match lex f r1 with
      | .error e => .error e
      | .ok ts => .ok (.ident (String.mk ws) :: ts)
    else if c = '\'' ∨ c = '"' then
      let body := cs.takeWhile (· != c)
      let r1 := cs.dropWhile (· != c)
      match r1 with
      | _ :: r2 =>
          match lex f r2 with
          | .error e => .error e
          | .ok ts => .ok (.strTok (String.mk body) :: ts)
      | [] => .error "unterminated string literal"
    else
      match c, cs with
      | '*', '*' :: r =>
          match lex f r with
          | .error e => .error e
          | .ok ts => .ok (.op "**" :: ts)
      | '/', '/' :: r =>
          match lex f r with
          | .error e => .error e
          | .ok ts => .ok (.op "//" :: ts)
      | '<', '=' :: r =>
          match lex f r with
          | .error e => .error e
          | .ok ts => .ok (.op "<=" :: ts)
      | '>', '=' :: r =>
          match lex f r with
          | .error e => .error e
          | .ok ts => .ok (.op ">=" :: ts)
      | '=', '=' :: r =>
          match lex f r with
          | .error e => .error e
          | .ok ts => .ok (.op "==" :: ts)
      | '!', '=' :: r =>
          match lex f r with
          | .error e => .error e
          | .ok ts => .ok (.op "!=" :: ts)
      | _, _ =>
        if c ∈ ['+', '-', '*', '/', '%', '(', ')', ',', '<', '>', '='] then
          match lex f cs with
          | .error e => .error e
          | .ok ts => .ok (.op (String.mk [c]) :: ts)
        else .error "unexpected character"

/-- Convert a parsed argument list into the evaluator's `ASTList`. -/
def toASTList : List AST → ASTList
  | [] => .nil
  | a :: as => .cons a (toASTList as)

mutual
/-- Comparison level (lowest precedence in the modelled subset): an
additive expression followed by a possibly-empty comparison chain. -/
def parseExpr : ℕ → List Tok → Except String (AST × List Tok)
  | 0, _ => .error "parser out of fuel"
  | f + 1, ts =>
    match parseAdd f ts with
    | .error e => .error e
    | .ok (a, r) => parseCmpRest f a [] r

/-- Collect `(< | > | <= | >= | == | !=) additive` comparators into a
single `Compare` node, as CPython does for comparison chains. -/
def parseCmpRest : ℕ → AST → List AST → List Tok →
    Except String (AST × List Tok)
  | 0, _, _, _ => .error "parser out of fuel"
  | f + 1, left, acc, ts =>
    match ts with
    | .op "<" :: r =>
        match parseAdd f r with
        | .error e => .error e
        | .ok (b, r2) => parseCmpRest f left (acc ++ [b]) r2
    | .op ">" :: r =>
        match parseAdd f r with
        | .error e => .error e
        | .ok (b, r2) => parseCmpRest f left (acc ++ [b]) r2
    | .op "<=" :: r =>
        match parseAdd f r with
        | .error e => .error e
        | .ok (b, r2) => parseCmpRest f left (acc ++ [b]) r2
    | .op ">=" :: r =>
        match parseAdd f r with
        | .error e => .error e
        | .ok (b, r2) => parseCmpRest f left (acc ++ [b]) r2
    | .op "==" :: r =>
        match parseAdd f r with
        | .error e => .error e
        | .ok (b, r2) => parseCmpRest f left (acc ++ [b]) r2
    | .op "!=" :: r =>
        match parseAdd f r with
        | .error e => .error e
        | .ok (b, r2) => parseCmpRest f left (acc ++ [b]) r2
    | _ => .ok (if acc.isEmpty then left else .compare left acc, ts)

/-- Additive level: `term ((+|-) term)*`, left-associative. -/
def parseAdd : ℕ → List Tok → Except String (AST × List Tok)
  | 0, _ => .error "parser out of fuel"
  | f + 1, ts =>
    match parseTerm f ts with
    | .error e => .error e
    | .ok (a, r) => parseAddRest f a r

/-- Left-associative loop of the additive level. -/
def parseAddRest : ℕ → AST → List Tok → Except String (AST × List Tok)
  | 0, _, _ => .error "parser out of fuel"
  | f + 1, left, ts =>
    match ts with
    | .op "+" :: r =>
        match parseTerm f r with
        | .error e => .error e
        | .ok (b, r2) => parseAddRest f (.binOp .add left b) r2
    | .op "-" :: r =>
        match parseTerm f r with
        | .error e => .error e
        | .ok (b, r2) => parseAddRest f (.binOp .sub left b) r2
    | _ => .ok (left, ts)

/-- Multiplicative level: `factor ((*|/|%|//) factor)*`,
left-associative. -/
def parseTerm : ℕ → List Tok → Except String (AST × List Tok)
  | 0, _ => .error "parser out of fuel"
  | f + 1, ts =>
    match parseFactor f ts with
    | .error e => .error e
    | .ok (a, r) => parseTermRest f a r

/-- Left-associative loop of the multiplicative level. -/
def parseTermRest : ℕ → AST → List Tok → Except String (AST × List Tok)
  | 0, _, _ => .error "parser out of fuel"
  | f + 1, left, ts =>
    match ts with
    | .op "*" :: r =>
        match parseFactor f r with
        | .error e => .error e
        | .ok (b, r2) => parseTermRest f (.binOp .mult left b) r2
    | .op "/" :: r =>
        match parseFactor f r with
        | .error e => .error e
        | .ok (b, r2) => parseTermRest f (.binOp .div left b) r2
    | .op "%" :: r =>
        match parseFactor f r with
        | .error e => .error e
        | .ok (b, r2) => parseTermRest f (.binOp .mod left b) r2
    | .op "//" :: r =>
        match parseFactor f r with
        | .error e => .error e
        | .ok (b, r2) => parseTermRest f (.binOp .floorDiv left b) r2
    | _ => .ok (left, ts)

/-- Unary level: `(+|-) factor | power` (unary binds tighter than the
multiplicative operators and looser than `**`). -/
def parseFactor : ℕ → List Tok → Except String (AST × List Tok)
  | 0, _ => .error "parser out of fuel"
  | f + 1, ts =>
    match ts with
    | .op "+" :: r =>
        match parseFactor f r with
        | .error e => .error e
        | .ok (a, r2) => .ok (.unaryOp .uadd a, r2)
    | .op "-" :: r =>
        match parseFactor f r with
        | .error e => .error e
        | .ok (a, r2) => .ok (.unaryOp .usub a, r2)
    | _ => parsePower f ts

/-- Power level: `atom [** factor]` — the exponent re-enters the unary
level, making `**` right-associative (`2**3**1` parses as
`2**(3**1)`). -/
def parsePower : ℕ → List Tok → Except String (AST × List Tok)
  | 0, _ => .error "parser out of fuel"
  | f + 1, ts =>
    match parseAtomCall f ts with
    | .error e => .error e
    | .ok (a, r) =>
        match r with
        | .op "**" :: r2 =>
            match parseFactor f r2 with
            | .error e => .error e
            | .ok (b, r3) => .ok (.binOp .pow a b, r3)
        | _ => .ok (a, r)

/-- An atom followed by call suffixes. -/
def parseAtomCall : ℕ → List Tok → Except String (AST × List Tok)
  | 0, _ => .error "parser out of fuel"
  | f + 1, ts =>
    match parseAtom f ts with
    | .error e => .error e
    | .ok (a, r) => parseTrailer f a r

/-- Call-suffix loop (`f(...)`, possibly chained). -/
def parseTrailer : ℕ → AST → List Tok → Except String (AST × List Tok)
  | 0, _, _ => .error "parser out of fuel"
  | f + 1, a, ts =>
    match ts with
    | .op "(" :: r =>
        match parseArgs f r with
        | .error e => .error e
        | .ok (args, r2) => parseTrailer f (.call a (toASTList args)) r2
    | _ => .ok (a, ts)

/-- Argument list after an opening parenthesis. -/
def parseArgs : ℕ → List Tok → Except String (List AST × List Tok)
  | 0, _ => .error "parser out of fuel"
  | f + 1, ts =>
    match ts with
    | .op ")" :: r => .ok ([], r)
    | _ =>
        match parseExpr f ts with
        | .error e => .error e
        | .ok (a, r) => parseArgsRest f [a] r

/-- Comma-separated continuation of an argument list. -/
def parseArgsRest : ℕ → List AST → List Tok →
    Except String (List AST × List Tok)
  | 0, _, _ => .error "parser out of fuel"
  | f + 1, acc, ts =>
    match ts with
    | .op "," :: r =>
        match parseExpr f r with
        | .error e => .error e
        | .ok (a, r2) => parseArgsRest f (acc ++ [a]) r2
    | .op ")" :: r => .ok (acc, r)
    | _ => .error "expected , or ) in call"

/-- Atoms: numeric, string and keyword literals, identifiers, and
parenthesised expressions. -/
def parseAtom : ℕ → List Tok → Except String (AST × List Tok)
  | 0, _ => .error "parser out of fuel"
  | f + 1, ts =>
    match ts with
    | .num c :: r => .ok (.constant c, r)
    | .strTok s :: r => .ok (.constant (.str s), r)
    | .ident "True" :: r => .ok (.constant (.bool true), r)
    | .ident "False" :: r => .ok (.constant (.bool false), r)
    | .ident "None" :: r => .ok (.constant .none, r)
    | .ident s :: r => .ok (.name s, r)
    | .op "(" :: r =>
        match parseExpr f r with
        | .error e => .error e
        | .ok (a, r2) =>
            match r2 with
            | .op ")" :: r3 => .ok (a, r3)
            | _ => .error "expected )"
    | _ => .error "invalid syntax"
end

/-- `ast.parse(s, mode="eval")`: tokenize, parse one expression, and
reject trailing tokens; the result is wrapped in an `Expression` node. -/
def parseModel (s : String) : Except String AST :=
  match lex (s.length + 1) s.toList with
  | .error e => .error e
  | .ok ts =>
      match parseExpr ((ts.length + 1) * 8) ts with
      | .error e => .error e
      | .ok (a, []) => .ok (.expression a)
      | .ok (_, _ :: _) => .error "invalid syntax (trailing tokens)"

/-- `evaluate_expression` (lines 136–142): parse, converting a
`SyntaxError` into `EvalError("Syntax error: ...")`, then `safe_eval`. -/
def evaluate_expression (γ : MathSem) (s : String) : Except PyErr PyFloat :=
  match parseModel s with
  | .error msg => .error (.evalError (.syntaxError msg))
  | .ok t => safe_eval γ t

/-- `q` is the value of a finite IEEE double: `m * 2 ^ e` with a 53-bit
mantissa (the exponent range is not restricted here, which only enlarges
the set of values). -/
def FloatRepr (q : ℚ) : Prop := ∃ m e : ℤ, |m| < 2 ^ 53 ∧ q = (m : ℚ) * 2 ^ e

/-- The first formatting condition of `format_result`:
`abs(result) > 1e15 or (abs(result) < 1e-4 and result != 0)`. -/
def sciCond (q : ℚ) : Prop := (10 : ℚ) ^ 15 < |q| ∨ (|q| < 1 / 10 ^ 4 ∧ q ≠ 0)

/-- "`value` is within `1e-12` of its nearest integer" (the claim's second
formatting condition, stated with the mathematical nearest integer). -/
def nearIntCond (q : ℚ) : Prop := |q - (round q : ℚ)| < 1 / 10 ^ 12


/-! ## Theorems for the claims -/

/-! ## Helper lemmas -/

/-- `Rat.floor` (used in the executable model) is Mathlib's floor. -/
theorem ratFloor_eq_floor (q : ℚ) : (Rat.floor q : ℤ) = ⌊q⌋ := rfl

/-- Evaluating a list of float-constant arguments succeeds with the
corresponding values. -/
theorem evalArgs_consts (γ : MathSem) (qs : List ℚ) :
    evalArgs γ (toASTList (qs.map fun q => AST.constant (.float q))) =
      .ok (qs.map PyFloat.finite) := by
  induction qs with
  | nil => rfl
  | cons q qs ih =>
      simp [toASTList, evalArgs, safe_eval, isIntOrFloat, constFloat, ih]

/-- The 19 names of `sorted_allowed` are strictly sorted (code-point
lexicographic order, the order Python's `sorted` uses here). -/
theorem sorted_allowed_sorted : List.Sorted (· < ·) sorted_allowed := by
  have hlt : ∀ a b : String, a.toList < b.toList → a < b := fun a b h =>
    String.lt_iff_toList_lt.2 h
  refine List.chain'_iff_pairwise.mp ?_
  simp only [sorted_allowed, List.chain'_cons, List.chain'_singleton, and_true]
  exact ⟨hlt _ _ (by decide), hlt _ _ (by decide), hlt _ _ (by decide),
    hlt _ _ (by decide), hlt _ _ (by decide), hlt _ _ (by decide),
    hlt _ _ (by decide), hlt _ _ (by decide), hlt _ _ (by decide),
    hlt _ _ (by decide), hlt _ _ (by decide), hlt _ _ (by decide),
    hlt _ _ (by decide), hlt _ _ (by decide), hlt _ _ (by decide),
    hlt _ _ (by decide), hlt _ _ (by decide), hlt _ _ (by decide)⟩

/-! ## C1 -/

/-- C1 (counterexample): the claim speaks of "the fixed 18-name function
table", but the table the evaluator enforces has 19 names. -/
theorem c1_counterexample :
    allowed_functions.length = 19 ∧ allowed_functions.length ≠ 18 := by
  exact ⟨rfl, by decide⟩

/-- C1 (amended: the function table has 19 names, not 18): evaluating a
`ConstantRef(name)` with `name` outside `{pi, e, tau, inf}` fails with
`UndefinedVariable(name)`; evaluating a `Call` whose callee is not a bare
identifier in the 19-name function table fails with `DisallowedFunction`
regardless of the arguments (they are never evaluated), and its message
enumerates the allowed function names in sorted order. -/
theorem c1_allowlist_enforcement :
    (∀ (γ : MathSem) (nm : String), nm ∉ (["pi", "e", "tau", "inf"] : List String) →
      safe_eval γ (.name nm) = .error (.evalError (.undefinedVariable nm)))
    ∧ (∀ (γ : MathSem) (f : AST) (args : ASTList),
        (∀ id, f = AST.name id → id ∉ allowed_functions) →
        safe_eval γ (.call f args) =
          .error (.evalError (.disallowedFunction disallowedMsg)))
    ∧ disallowedMsg = "Function calls are not allowed except math functions: " ++
        String.intercalate ", " sorted_allowed
    ∧ List.Sorted (· < ·) sorted_allowed
    ∧ sorted_allowed.Perm allowed_functions
    ∧ allowed_functions.length = 19 := by
  refine ⟨?_, ?_, rfl, sorted_allowed_sorted, by decide, rfl⟩
  · intro γ nm h
    simp only [List.mem_cons, List.not_mem_nil, or_false, not_or] at h
    obtain ⟨h1, h2, h3, h4⟩ := h
    simp only [safe_eval, constants, if_neg h1, if_neg h2, if_neg h3, if_neg h4]
  · intro γ f args h
    cases f <;> first
    | rfl
    | (rename_i id
       simp only [safe_eval]
       rw [if_neg (h id rfl)])

/-- C1 (witness): the hypotheses of `c1_allowlist_enforcement` hold at the
identifier `foo` and the call `open('x')`. -/
theorem c1_witness :
    ("foo" ∉ (["pi", "e", "tau", "inf"] : List String)) ∧
    safe_eval cpySem (.name "foo") = .error (.evalError (.undefinedVariable "foo")) ∧
    (∀ id, AST.name "open" = AST.name id → id ∉ allowed_functions) ∧
    safe_eval cpySem (.call (.name "open") (.cons (.constant (.str "x")) .nil)) =
      .error (.evalError (.disallowedFunction disallowedMsg)) := by
  have hopen : ∀ id, AST.name "open" = AST.name id → id ∉ allowed_functions := by
    intro id h
    cases h
    decide
  exact ⟨by decide, c1_allowlist_enforcement.1 cpySem "foo" (by decide), hopen,
    c1_allowlist_enforcement.2.1 cpySem (AST.name "open")
      (.cons (.constant (.str "x")) .nil) hopen⟩

/-! ## C2 -/

/-- C2 (counterexample): evaluating the parsed tree of `"1 < 2"` neither
returns a double nor raises a typed `EvalError`: it crashes with an
uncaught `AttributeError` (line 130 looks up the nonexistent `ast.Paren`). -/
theorem c2_counterexample :
    evaluate_expression cpySem "1 < 2" = .error (.uncaught .attributeError) := rfl

/-- C2 (amended): in a `Call` to a math-module function, a runtime failure
raising `AttributeError`, `ValueError` or `TypeError` is caught and
reported as `EvalError("Error calling ...")`, but any other exception
escapes uncaught; in particular `exp(1000)` overflows the double range,
raises `OverflowError`, and crashes the evaluation, and trees with nodes
outside the supported kinds crash with an uncaught `AttributeError`. -/
theorem c2_crash_behaviour :
    (∀ (γ : MathSem) (nm : String) (qs : List ℚ) (exc : PyExc),
      nm ∈ allowed_functions → nm ≠ "round" → nm ≠ "abs" →
      γ.mathFn nm (qs.map .finite) = .error exc →
      safe_eval γ (.call (.name nm) (toASTList (qs.map fun q => AST.constant (.float q)))) =
        (if exc = .attributeError ∨ exc = .valueError ∨ exc = .typeError then
          .error (.evalError (.callError nm exc))
        else .error (.uncaught exc)))
    ∧ safe_eval cpySem (.call (.name "exp") (.cons (.constant (.int 1000)) .nil)) =
        .error (.uncaught .overflowError)
    ∧ evaluate_expression cpySem "2 > 1" = .error (.uncaught .attributeError) := by
  refine ⟨?_, rfl, rfl⟩
  intro γ nm qs exc hmem hr ha hfn
  simp only [safe_eval, if_pos hmem, evalArgs_consts, runCall, hfn, hr, ha,
    if_false]

/-- C2 (witness): the hypotheses of `c2_crash_behaviour` hold for
`sqrt(-1.0)` (a domain error: CPython's `math.sqrt` raises `ValueError`
on negative arguments, which is caught and reported). -/
theorem c2_witness :
    ("sqrt" ∈ allowed_functions) ∧ "sqrt" ≠ "round" ∧ "sqrt" ≠ "abs" ∧
    cpySem.mathFn "sqrt" ([(-1 : ℚ)].map .finite) = .error .valueError ∧
    safe_eval cpySem (.call (.name "sqrt")
        (toASTList (([(-1 : ℚ)]).map fun q => AST.constant (.float q)))) =
      (if PyExc.valueError = .attributeError ∨ PyExc.valueError = .valueError ∨
          PyExc.valueError = .typeError then
        .error (.evalError (.callError "sqrt" .valueError))
      else .error (.uncaught .valueError)) := by
  refine ⟨by decide, by decide, by decide, rfl, ?_⟩
  exact c2_crash_behaviour.1 cpySem "sqrt" [(-1 : ℚ)] .valueError (by decide)
    (by decide) (by decide) rfl

/-! ## C3 -/

/-- C3 (counterexample): the input `'abc'` contains a string literal, yet
parsing succeeds (the parser silently constructs a `Constant` node for it)
and the failure is a later evaluation failure, not a `ParseError`. -/
theorem c3_counterexample :
    parseModel "'abc'" = .ok (.expression (.constant (.str "abc"))) ∧
    evaluate_expression cpySem "'abc'" =
      .error (.evalError (.unsupportedConstant "str")) := ⟨rfl, rfl⟩

/-- C3 (amended): only non-expression inputs such as assignments fail at
the syntax level (surfacing as `EvalError("Syntax error: ...")`).
Expression-level constructs outside the five node kinds parse into AST
nodes and are rejected only during evaluation: string literals with
`EvalError("Unsupported constant type")`, `not` with
`EvalError("Unary operator Not not allowed")`, while comparison, `and`/`or`
boolean logic, list literals, attribute access, index access and lambda
crash with an uncaught `AttributeError`; boolean literals are not rejected
at all — they parse and evaluate as numbers. -/
theorem c3_rejection_sites :
    (∃ m, evaluate_expression cpySem "x = 1" = .error (.evalError (.syntaxError m)))
    ∧ evaluate_expression cpySem "'abc'" =
        .error (.evalError (.unsupportedConstant "str"))
    ∧ parseModel "True" = .ok (.expression (.constant (.bool true)))
    ∧ safe_eval cpySem (.unaryOp .notOp (.constant (.bool true))) =
        .error (.evalError (.unaryNotAllowed "Not"))
    ∧ (∀ (γ : MathSem) (l : AST) (cs : List AST),
        safe_eval γ (.compare l cs) = .error (.uncaught .attributeError))
    ∧ (∀ (γ : MathSem) (vs : List AST),
        safe_eval γ (.boolOp vs) = .error (.uncaught .attributeError))
    ∧ (∀ (γ : MathSem) (es : List AST),
        safe_eval γ (.listLit es) = .error (.uncaught .attributeError))
    ∧ (∀ (γ : MathSem) (v : AST) (a : String),
        safe_eval γ (.attributeRef v a) = .error (.uncaught .attributeError))
    ∧ (∀ (γ : MathSem) (v i : AST),
        safe_eval γ (.subscript v i) = .error (.uncaught .attributeError))
    ∧ (∀ (γ : MathSem) (b : AST),
        safe_eval γ (.lambda b) = .error (.uncaught .attributeError)) := by
  exact ⟨⟨_, rfl⟩, rfl, rfl, rfl,
    fun γ l cs => rfl, fun γ vs => rfl, fun γ es => rfl,
    fun γ v a => rfl, fun γ v i => rfl, fun γ b => rfl⟩

/-! ## C4 -/

/-- C4 (counterexample): evaluating `1 / 0` does not produce an IEEE
special value; Python raises `ZeroDivisionError`, which the blanket
`except Exception` of the `BinOp` branch converts into an error result. -/
theorem c4_counterexample :
    safe_eval cpySem (.binOp .div (.constant (.int 1)) (.constant (.int 0))) =
      .error (.evalError (.binOpError .zeroDivisionError)) := rfl

/-- C4 (amended): for every operand, dividing by zero raises
`ZeroDivisionError` (CPython raises whenever the divisor compares equal to
`0.0`), which the `except Exception` handler converts into
`EvalError("Error evaluating binary op: ...")`; the result is never an
IEEE special value. -/
theorem c4_div_by_zero :
    (∀ a : PyFloat, pyDiv a (.finite 0) = .error .zeroDivisionError)
    ∧ (∀ (γ : MathSem) (q : ℚ),
        safe_eval γ (.binOp .div (.constant (.float q)) (.constant (.float 0))) =
          .error (.evalError (.binOpError .zeroDivisionError))) := by
  constructor
  · intro a
    cases a <;> simp [pyDiv]
  · intro γ q
    simp [safe_eval, isIntOrFloat, constFloat, ALLOWED_BINARY_OPS, pyDiv]

/-! ## C5 -/

/-- C5 (counterexample): `(-7) % 3` evaluates to `2`, which is positive
while the dividend is negative — the result does not take the sign of the
dividend. -/
theorem c5_counterexample :
    safe_eval cpySem (.binOp .mod (.unaryOp .usub (.constant (.int 7)))
        (.constant (.int 3))) = .ok (.finite 2) ∧
    (-7 : ℚ) < 0 ∧ (0 : ℚ) < 2 := by
  refine ⟨?_, by norm_num, by norm_num⟩
  simp only [safe_eval, ALLOWED_BINARY_OPS, ALLOWED_UNARY_OPS, constFloat,
    isIntOrFloat, pyNeg, pyMod, pyPos]
  norm_num [Rat.floor_def']

/-- C5 (amended): for finite operands with `b ≠ 0`, `a % b` evaluates to
`a - b * ⌊a / b⌋`, and the result is zero or has the same sign as the
DIVISOR `b` (Python's convention), not the dividend. -/
theorem c5_mod_sign (γ : MathSem) (a b : ℚ) (hb : b ≠ 0) :
    safe_eval γ (.binOp .mod (.constant (.float a)) (.constant (.float b))) =
      .ok (.finite (a - b * Rat.floor (a / b))) ∧
    (a - b * Rat.floor (a / b) = 0 ∨ (0 < b ↔ 0 < a - b * Rat.floor (a / b))) := by
  constructor
  · simp [safe_eval, isIntOrFloat, constFloat, ALLOWED_BINARY_OPS, pyMod, hb]
  · have hfr : a - b * Rat.floor (a / b) = b * Int.fract (a / b) := by
      rw [ratFloor_eq_floor, Int.fract, mul_sub]
      rw [mul_div_cancel₀ a hb]
    rcases eq_or_lt_of_le (Int.fract_nonneg (a / b)) with h0 | hpos
    · left
      rw [hfr, ← h0, mul_zero]
    · right
      rw [hfr]
      constructor
      · intro hb0
        exact mul_pos hb0 hpos
      · intro hbf
        by_contra hble
        push_neg at hble
        rcases lt_or_eq_of_le hble with hlt | he
        · exact absurd hbf (not_lt.2 (le_of_lt (mul_neg_of_neg_of_pos hlt hpos)))
        · exact hb he

/-- C5 (witness): the amended statement at `a = -7`, `b = 3`
(`(-7) % 3 = 2`, positive like the divisor). -/
theorem c5_witness :
    (3 : ℚ) ≠ 0 ∧
    (safe_eval cpySem (.binOp .mod (.constant (.float (-7))) (.constant (.float 3))) =
      .ok (.finite ((-7) - 3 * Rat.floor ((-7) / 3))) ∧
    ((-7 : ℚ) - 3 * Rat.floor ((-7 : ℚ) / 3) = 0 ∨
      (0 < (3 : ℚ) ↔ 0 < (-7 : ℚ) - 3 * Rat.floor ((-7 : ℚ) / 3)))) :=
  ⟨by norm_num, c5_mod_sign cpySem (-7) 3 (by norm_num)⟩

/-! ## C6 -/

/-- C6 (counterexample): `abs` called with a superfluous second argument
silently succeeds (`float(abs(args[0]))` ignores the rest), instead of
failing with an `ArityMismatch` error. -/
theorem c6_counterexample :
    safe_eval cpySem (.call (.name "abs")
        (.cons (.unaryOp .usub (.constant (.int 5)))
          (.cons (.constant (.int 123)) .nil))) = .ok (.finite 5) := rfl

/-- C6 (amended): no `ArityMismatch` error exists.  `abs` ignores extra
arguments and silently succeeds; `abs` with zero arguments crashes with an
uncaught `IndexError`; `round` with an argument count other than one falls
into the `getattr(math, "round")` branch and reports
`EvalError("Error calling round: ...")` via `AttributeError`; a
math-module function with a wrong arity reports
`EvalError("Error calling ...")` via the `TypeError` Python raises. -/
theorem c6_arity_behaviour :
    safe_eval cpySem (.call (.name "abs")
        (.cons (.unaryOp .usub (.constant (.float 5)))
          (.cons (.constant (.int 99)) .nil))) = .ok (.finite 5)
    ∧ safe_eval cpySem (.call (.name "abs") .nil) = .error (.uncaught .indexError)
    ∧ safe_eval cpySem (.call (.name "round")
        (.cons (.constant (.int 1)) (.cons (.constant (.int 2)) .nil))) =
      .error (.evalError (.callError "round" .attributeError))
    ∧ safe_eval cpySem (.call (.name "sqrt")
        (.cons (.constant (.int 1)) (.cons (.constant (.int 2)) .nil))) =
      .error (.evalError (.callError "sqrt" .typeError)) := by
  exact ⟨rfl, rfl, rfl, rfl⟩

/-! ## C7 -/

/-- C7 (counterexample): the left-associated tree `(2**3)**1` evaluates to
`8`, not `64` as the claim asserts — this test value cannot distinguish
the two associations numerically. -/
theorem c7_counterexample :
    safe_eval cpySem (.binOp .pow (.binOp .pow (.constant (.int 2))
      (.constant (.int 3))) (.constant (.int 1))) = .ok (.finite 8) ∧
    (8 : ℚ) ≠ 64 := by
  refine ⟨?_, by norm_num⟩
  simp only [safe_eval, ALLOWED_BINARY_OPS, constFloat, isIntOrFloat, pyPow]
  norm_num [qzpow, qpow]

/-- C7 (amended): `**` is right-associative — `"2**3**1"` parses as
`2**(3**1)` and evaluates to `8`; but the left-associated reading
`(2**3)**1` also evaluates to `8` (not `64`), so the associativity shows
up in the parse tree, not in this test's value. -/
theorem c7_power_right_assoc :
    parseModel "2**3**1" = .ok (.expression (.binOp .pow (.constant (.int 2))
      (.binOp .pow (.constant (.int 3)) (.constant (.int 1))))) ∧
    evaluate_expression cpySem "2**3**1" = .ok (.finite 8) ∧
    safe_eval cpySem (.binOp .pow (.binOp .pow (.constant (.int 2))
      (.constant (.int 3))) (.constant (.int 1))) = .ok (.finite 8) := by
  refine ⟨rfl, ?_, ?_⟩
  · unfold evaluate_expression
    rw [show parseModel "2**3**1" = .ok (.expression (.binOp .pow (.constant (.int 2))
      (.binOp .pow (.constant (.int 3)) (.constant (.int 1))))) from rfl]
    simp only [safe_eval, ALLOWED_BINARY_OPS, constFloat, isIntOrFloat, pyPow]
    norm_num [qzpow, qpow]
  · simp only [safe_eval, ALLOWED_BINARY_OPS, constFloat, isIntOrFloat, pyPow]
    norm_num [qzpow, qpow]

/-! ## C9 -/

/-- C9: boolean literals are accepted as numeric constants:
`evaluate_expression("True")` returns `1.0` and
`evaluate_expression("False")` returns `0.0`, because the constant check
`isinstance(value, (int, float))` accepts booleans (a subtype of `int`). -/
theorem c9_boolean_literals :
    evaluate_expression cpySem "True" = .ok (.finite 1) ∧
    evaluate_expression cpySem "False" = .ok (.finite 0) ∧
    isIntOrFloat (.bool true) = true ∧ isIntOrFloat (.bool false) = true :=
  ⟨rfl, rfl, rfl, rfl⟩

/-! ## C10 -/

/-- C10: the formatter is not total: `format_result` applied to `nan`
satisfies neither scientific-notation condition (IEEE comparisons with
`nan` are false), and the integer-proximity test then calls `int(nan)`,
which raises an uncaught `ValueError`. -/
theorem c10_format_nan :
    format_result .nan = .error .valueError := rfl


/-! ## Helper lemmas for C8 -/

/-- `qpow` agrees with `^`. -/
theorem qpow_eq (a : ℚ) (n : ℕ) : qpow a n = a ^ n := by
  induction n with
  | zero => rfl
  | succ n ih => rw [qpow, ih, pow_succ, mul_comm]

/-- `qzpow` agrees with `^`. -/
theorem qzpow_eq (a : ℚ) (n : ℤ) : qzpow a n = a ^ n := by
  cases n with
  | ofNat m => rw [qzpow, qpow_eq, Int.ofNat_eq_coe, zpow_natCast]
  | negSucc m => rw [qzpow, qpow_eq, zpow_negSucc]

/-- `natDigitsAux` with sufficient fuel computes `Nat.digits 10`. -/
theorem natDigitsAux_eq : ∀ f n, n < f → natDigitsAux f n = Nat.digits 10 n := by
  intro f
  induction f with
  | zero => intro n h; omega
  | succ f ih =>
      intro n h
      cases n with
      | zero => simp [natDigitsAux]
      | succ n =>
          rw [natDigitsAux, ih ((n + 1) / 10) ?_,
            Nat.digits_def' (by norm_num : 1 < 10) (Nat.succ_pos n)]
          have h1 : (n + 1) / 10 < n + 1 := Nat.div_lt_self (Nat.succ_pos n) (by norm_num)
          omega

/-- `natDigits` computes `Nat.digits 10`. -/
theorem natDigits_eq (n : ℕ) : natDigits n = Nat.digits 10 n :=
  natDigitsAux_eq _ _ (Nat.lt_succ_self n)

/-- Dropping leading zeros past a zero-run. -/
theorem dropWhile_zeros (j : ℕ) (l : List ℕ) :
    (List.replicate j 0 ++ l).dropWhile (· == 0) = l.dropWhile (· == 0) := by
  induction j with
  | zero => rfl
  | succ j ih => simp [List.replicate_succ, List.dropWhile, ih]

/-- The zero-prefix of a digit list is a replicate of zeros. -/
theorem takeWhile_zeros_replicate (l : List ℕ) :
    l.takeWhile (· == 0) = List.replicate (l.takeWhile (· == 0)).length 0 := by
  apply List.eq_replicate_length.mpr
  intro b hb
  simpa using List.mem_takeWhile_imp hb

/-- Restoring the stripped zeros on the right of the reversed digit list
gives back the reversed digit list. -/
theorem pad_strip (l : List ℕ) :
    (l.dropWhile (· == 0)).reverse ++
      List.replicate (l.length - (l.dropWhile (· == 0)).length) 0 = l.reverse := by
  conv_rhs => rw [← List.takeWhile_append_dropWhile (p := (· == 0)) (l := l)]
  rw [List.reverse_append]
  congr 1
  have hlen : (l.takeWhile (· == 0)).length + (l.dropWhile (· == 0)).length = l.length := by
    rw [← List.length_append, List.takeWhile_append_dropWhile]
  rw [show l.length - (l.dropWhile (· == 0)).length = (l.takeWhile (· == 0)).length by omega]
  rw [takeWhile_zeros_replicate l, List.reverse_replicate, List.length_replicate]

/-- Uniqueness of the decimal exponent. -/
theorem int_log_eq {a : ℚ} {z : ℤ} (ha : 0 < a) (h1 : (10 : ℚ) ^ z ≤ a)
    (h2 : a < (10 : ℚ) ^ (z + 1)) : Int.log 10 a = z := by
  have hb : 1 < (10 : ℕ) := by norm_num
  have hcast : ((10 : ℕ) : ℚ) = (10 : ℚ) := by norm_num
  have hz1 : z ≤ Int.log 10 a := by
    rw [← Int.zpow_le_iff_le_log hb ha, hcast]
    exact h1
  have hz2 : Int.log 10 a < z + 1 := by
    rw [← Int.lt_zpow_iff_log_lt hb ha, hcast]
    exact h2
  omega

/-- `roundHE` on `[N, N + 1/2)` returns `N`. -/
theorem roundHE_eq_left (N : ℤ) (x : ℚ) (h1 : (N : ℚ) ≤ x) (h2 : x < N + 1/2) :
    roundHE x = N := by
  have hf : Rat.floor x = N := by
    rw [ratFloor_eq_floor]
    exact Int.floor_eq_iff.mpr ⟨h1, by linarith⟩
  unfold roundHE
  rw [hf, if_pos (by linarith)]

/-- `roundHE` on `(N - 1/2, N]` returns `N`. -/
theorem roundHE_eq_right (N : ℤ) (x : ℚ) (h1 : (N : ℚ) - 1/2 < x) (h2 : x ≤ N) :
    roundHE x = N := by
  rcases eq_or_lt_of_le h2 with he | hlt
  · have hf : Rat.floor x = N := by
      rw [ratFloor_eq_floor, he, Int.floor_intCast]
    unfold roundHE
    rw [hf, if_pos (by rw [he]; norm_num)]
  · have hf : Rat.floor x = N - 1 := by
      rw [ratFloor_eq_floor]
      refine Int.floor_eq_iff.mpr ⟨by push_cast; linarith, by push_cast; linarith⟩
    unfold roundHE
    rw [hf, if_neg (by push_cast; linarith), if_pos (by push_cast; linarith)]
    omega

/-- `int()` on an integer float value. -/
theorem pytrunc_intCast (n : ℤ) : pytrunc (n : ℚ) = n := by
  unfold pytrunc
  have h1 : Rat.floor ((n : ℚ)) = n := by rw [ratFloor_eq_floor, Int.floor_intCast]
  have h2 : Rat.floor (-(n : ℚ)) = -n := by
    rw [ratFloor_eq_floor, ← Int.cast_neg, Int.floor_intCast]
  by_cases h : (0 : ℚ) ≤ (n : ℚ)
  · rw [if_pos h, h1]
  · rw [if_neg h, h2, neg_neg]

/-- An integer within `1/2` of `q` is `round q`. -/
theorem round_eq_of_abs_lt_half {q : ℚ} {t : ℤ} (h : |q - t| < 1/2) :
    round q = t := by
  rw [round_eq]
  rw [abs_sub_lt_iff] at h
  refine Int.floor_eq_iff.mpr ⟨by linarith [h.2], by linarith [h.1]⟩

/-- The source's integer test (`abs(result - int(result)) < 1e-12`) implies
the claim's nearest-integer condition, and identifies the two integers. -/
theorem nearIntCond_of_code (q : ℚ) (h : |q - (pytrunc q : ℚ)| < 1/10^12) :
    nearIntCond q ∧ round q = pytrunc q := by
  have hr : round q = pytrunc q := round_eq_of_abs_lt_half (lt_trans h (by norm_num))
  refine ⟨?_, hr⟩
  unfold nearIntCond
  rw [hr]
  exact h

/-- A double that is within `1e-12` of an integer without being that
integer is small: its magnitude is below `9008` (≈ `2^53 / 10^12`). -/
theorem floatRepr_bound {q : ℚ} (hq : FloatRepr q) {n : ℤ} (hne : q ≠ (n : ℚ))
    (hclose : |q - n| < 1/10^12) : |q| < 9008 := by
  obtain ⟨m, e, hm, rfl⟩ := hq
  rcases le_or_lt 0 e with he | he
  · exfalso
    have hz : (m : ℚ) * 2 ^ e = ((m * 2 ^ e.toNat : ℤ) : ℚ) := by
      push_cast
      rw [← zpow_natCast, Int.toNat_of_nonneg he]
    rw [hz] at hne hclose
    have hne' : m * 2 ^ e.toNat - n ≠ 0 := by
      intro h0
      apply hne
      have h1 : (m * 2 ^ e.toNat : ℤ) = n := by omega
      rw [h1]
    have h1 : (1 : ℚ) ≤ |((m * 2 ^ e.toNat : ℤ) : ℚ) - n| := by
      rw [← Int.cast_sub, ← Int.cast_abs]
      exact_mod_cast Int.one_le_abs hne'
    have h2 : (1 : ℚ) / 10 ^ 12 < 1 := by norm_num
    linarith
  · set j : ℕ := (-e).toNat with hj
    have hj1 : 1 ≤ j := by omega
    have hje : ((j : ℤ)) = -e := by omega
    have hepow : (2 : ℚ) ^ e = ((2 : ℚ) ^ j)⁻¹ := by
      rw [← zpow_natCast, hje, zpow_neg, inv_inv]
    have h2jpos : (0 : ℚ) < 2 ^ j := by positivity
    have hne' : m - n * 2 ^ j ≠ 0 := by
      intro h0
      apply hne
      have hmeq : m = n * 2 ^ j := by omega
      rw [hmeq, hepow]
      push_cast
      field_simp
    have hkey : (1 : ℚ) ≤ |(m : ℚ) - n * 2 ^ j| := by
      have h1 := Int.one_le_abs hne'
      calc (1 : ℚ) ≤ ((|m - n * 2 ^ j| : ℤ) : ℚ) := by exact_mod_cast h1
        _ = |(m : ℚ) - n * 2 ^ j| := by push_cast; rfl
    have hdiff : (m : ℚ) * 2 ^ e - n = ((m : ℚ) - n * 2 ^ j) / 2 ^ j := by
      rw [hepow]
      field_simp
      ring
    rw [hdiff, abs_div, abs_of_pos h2jpos] at hclose
    have hpow : (10 : ℚ) ^ 12 < 2 ^ j := by
      rw [div_lt_div_iff₀ h2jpos (by norm_num)] at hclose
      nlinarith [hkey]
    have hmq : |(m : ℚ)| < 2 ^ 53 := by
      have h1 : ((|m| : ℤ) : ℚ) < ((2 ^ 53 : ℤ) : ℚ) := by exact_mod_cast hm
      calc |(m : ℚ)| = ((|m| : ℤ) : ℚ) := by push_cast; rfl
        _ < ((2 ^ 53 : ℤ) : ℚ) := h1
        _ = 2 ^ 53 := by push_cast; rfl
    have hinv : ((2 : ℚ) ^ j)⁻¹ ≤ ((10 : ℚ) ^ 12)⁻¹ := by
      apply inv_anti₀ (by norm_num) (le_of_lt hpow)
    calc |(m : ℚ) * 2 ^ e| = |(m : ℚ)| * (2 ^ j)⁻¹ := by
          rw [abs_mul, hepow, abs_inv, abs_of_pos h2jpos]
      _ ≤ |(m : ℚ)| * ((10 : ℚ) ^ 12)⁻¹ :=
          mul_le_mul_of_nonneg_left hinv (abs_nonneg _)
      _ < 2 ^ 53 * ((10 : ℚ) ^ 12)⁻¹ :=
          mul_lt_mul_of_pos_right hmq (by norm_num)
      _ < 9008 := by norm_num

/-- `String.mk` distributes over append. -/
theorem mk_append_nil (l : List Char) : String.mk l ++ "" = String.mk l := by
  show String.mk (l ++ []) = String.mk l
  rw [List.append_nil]

/-- `natStr` in terms of `Nat.digits`. -/
theorem natStr_eq (n : ℕ) (hn : n ≠ 0) :
    natStr n = digitsToStr ((Nat.digits 10 n).reverse) := by
  unfold natStr
  rw [if_neg hn, natDigits_eq]

/-- Stripping the zeros that scaling by `10 ^ j` appended and padding the
integer part back gives exactly the digit string of `n`. -/
theorem strip_pad_digits (n : ℕ) (hn : 0 < n) (k j : ℕ)
    (hlen : (Nat.digits 10 n).length = k + 1) :
    ((natDigits (10 ^ j * n)).dropWhile (· == 0)).reverse ++
        List.replicate
          ((k + 1) - ((natDigits (10 ^ j * n)).dropWhile (· == 0)).reverse.length) 0
      = (Nat.digits 10 n).reverse := by
  rw [natDigits_eq, Nat.digits_base_pow_mul (by norm_num) hn, dropWhile_zeros,
    List.length_reverse]
  have hle : ((Nat.digits 10 n).dropWhile (· == 0)).length ≤ (Nat.digits 10 n).length := by
    conv_rhs => rw [← List.takeWhile_append_dropWhile (· == 0) (Nat.digits 10 n)]
    rw [List.length_append]
    omega
  rw [show (k + 1) - ((Nat.digits 10 n).dropWhile (· == 0)).length
      = (Nat.digits 10 n).length - ((Nat.digits 10 n).dropWhile (· == 0)).length by omega]
  exact pad_strip _

/-- The decimal exponent of a value in `[10 ^ k, 10 ^ (k+1))`. -/
theorem int_log_of_pow_le {a : ℚ} {k : ℕ} (h1 : (10 : ℚ) ^ k ≤ a)
    (h2 : a < (10 : ℚ) ^ (k + 1)) : Int.log 10 a = (k : ℤ) := by
  have ha : 0 < a := lt_of_lt_of_le (by positivity) h1
  refine int_log_eq ha ?_ ?_
  · rw [zpow_natCast]
    exact h1
  · rw [show ((k : ℤ) + 1) = ((k + 1 : ℕ) : ℤ) by omega, zpow_natCast]
    exact h2

/-- Rendering of `%.10g` near an integer, generic case: `n` is not a power
of ten that `a` sits just below. -/
theorem g10mag_generic (n : ℕ) (hn1 : 1 ≤ n) (hn9 : n ≤ 10 ^ 9) (a : ℚ)
    (hlo : (n : ℚ) - 1/10^12 < a) (hhi : a < (n : ℚ) + 1/10^12)
    (hcase : ¬(a < (n : ℚ) ∧ n = 10 ^ Nat.log 10 n)) :
    g10mag a = natStr n := by
  set k := Nat.log 10 n with hkdef
  have hk1 : 10 ^ k ≤ n := Nat.pow_log_le_self 10 (by omega)
  have hk2 : n < 10 ^ (k + 1) := Nat.lt_pow_succ_log_self (by norm_num) n
  have hk9 : k ≤ 9 := by
    have h1 : Nat.log 10 n ≤ Nat.log 10 (10 ^ 9) := Nat.log_mono_right hn9
    rwa [Nat.log_pow (by norm_num)] at h1
  have hnq1 : (1 : ℚ) ≤ (n : ℚ) := by exact_mod_cast hn1
  have ha_pos : 0 < a := by
    have : (1 : ℚ) / 10 ^ 12 < 1 := by norm_num
    linarith
  have hcast_k : ((10 ^ k : ℕ) : ℚ) = (10 : ℚ) ^ k := by push_cast; rfl
  have hak_lo : (10 : ℚ) ^ k ≤ a := by
    rcases le_or_lt (n : ℚ) a with h | h
    · calc (10 : ℚ) ^ k ≤ (n : ℚ) := by exact_mod_cast hk1
        _ ≤ a := h
    · have hne : n ≠ 10 ^ k := fun he => hcase ⟨h, he⟩
      have hlt : 10 ^ k + 1 ≤ n := by omega
      have : (10 : ℚ) ^ k + 1 ≤ (n : ℚ) := by exact_mod_cast hlt
      have hδ : (1 : ℚ) / 10 ^ 12 < 1 := by norm_num
      linarith
  have hak_hi : a < (10 : ℚ) ^ (k + 1) := by
    have h1 : n + 1 ≤ 10 ^ (k + 1) := hk2
    have h2 : (n : ℚ) + 1 ≤ (10 : ℚ) ^ (k + 1) := by exact_mod_cast h1
    have hδ : (1 : ℚ) / 10 ^ 12 < 1 := by norm_num
    linarith
  have he0 : Int.log 10 a = (k : ℤ) := int_log_of_pow_le hak_lo hak_hi
  have hzpow : qzpow 10 (9 - Int.log 10 a) = (10 : ℚ) ^ (9 - k : ℕ) := by
    rw [qzpow_eq, he0, show (9 : ℤ) - (k : ℤ) = ((9 - k : ℕ) : ℤ) by omega, zpow_natCast]
  set N : ℕ := 10 ^ (9 - k) * n with hNdef
  have hNq : ((N : ℤ) : ℚ) = (10 : ℚ) ^ (9 - k : ℕ) * n := by
    rw [hNdef]
    push_cast
    ring
  have hpow_pos : (0 : ℚ) < 10 ^ (9 - k : ℕ) := by positivity
  have hpow_le : (10 : ℚ) ^ (9 - k : ℕ) ≤ 10 ^ (9 : ℕ) :=
    pow_le_pow_right₀ (by norm_num) (by omega)
  have hsmall : (1 : ℚ) / 10 ^ 12 * 10 ^ (9 - k : ℕ) ≤ 1 / 1000 := by
    calc (1 : ℚ) / 10 ^ 12 * 10 ^ (9 - k : ℕ) ≤ 1 / 10 ^ 12 * 10 ^ (9 : ℕ) := by
          exact mul_le_mul_of_nonneg_left hpow_le (by norm_num)
      _ = 1 / 1000 := by norm_num
  have hround : roundHE (a * (10 : ℚ) ^ (9 - k : ℕ)) = (N : ℤ) := by
    have hsc_hi : a * 10 ^ (9 - k : ℕ) < ((N : ℤ) : ℚ) + 1 / 1000 := by
      rw [hNq]
      have h1 : a * 10 ^ (9 - k : ℕ) < ((n : ℚ) + 1 / 10 ^ 12) * 10 ^ (9 - k : ℕ) :=
        mul_lt_mul_of_pos_right hhi hpow_pos
      have h2 : ((n : ℚ) + 1 / 10 ^ 12) * 10 ^ (9 - k : ℕ)
          = (n : ℚ) * 10 ^ (9 - k : ℕ) + 1 / 10 ^ 12 * 10 ^ (9 - k : ℕ) := by ring
      nlinarith [hsmall]
    have hsc_lo : ((N : ℤ) : ℚ) - 1 / 1000 < a * 10 ^ (9 - k : ℕ) := by
      rw [hNq]
      have h1 : ((n : ℚ) - 1 / 10 ^ 12) * 10 ^ (9 - k : ℕ) < a * 10 ^ (9 - k : ℕ) :=
        mul_lt_mul_of_pos_right hlo hpow_pos
      nlinarith [hsmall]
    rcases le_or_lt (n : ℚ) a with h | h
    · apply roundHE_eq_left
      · rw [hNq]
        calc (10 : ℚ) ^ (9 - k : ℕ) * n = (n : ℚ) * 10 ^ (9 - k : ℕ) := by ring
          _ ≤ a * 10 ^ (9 - k : ℕ) := mul_le_mul_of_nonneg_right h (le_of_lt hpow_pos)
      · have : (1 : ℚ) / 1000 < 1 / 2 := by norm_num
        push_cast
        push_cast at hsc_hi
        linarith
    · apply roundHE_eq_right
      · have : (1 : ℚ) / 1000 < 1 / 2 := by norm_num
        push_cast
        push_cast at hsc_lo
        linarith
      · rw [hNq]
        calc a * 10 ^ (9 - k : ℕ) ≤ (n : ℚ) * 10 ^ (9 - k : ℕ) :=
              mul_le_mul_of_nonneg_right (le_of_lt h) (le_of_lt hpow_pos)
          _ = (10 : ℚ) ^ (9 - k : ℕ) * n := by ring
  have hN_hi : N < 10 ^ 10 := by
    have h1 : N + 10 ^ (9 - k) = 10 ^ (9 - k) * (n + 1) := by
      rw [hNdef]
      ring
    have h2 : 10 ^ (9 - k) * (n + 1) ≤ 10 ^ (9 - k) * 10 ^ (k + 1) :=
      Nat.mul_le_mul_left _ hk2
    have h3 : 10 ^ (9 - k) * 10 ^ (k + 1) = 10 ^ 10 := by
      rw [← pow_add]
      congr 1
      omega
    have h4 : 0 < 10 ^ (9 - k) := Nat.pos_pow_of_pos _ (by norm_num)
    omega
  have hAux : g10Aux a = ((N : ℤ), (k : ℤ)) := by
    unfold g10Aux
    rw [hzpow, hround, he0]
    rw [if_neg (by exact_mod_cast Nat.ne_of_lt hN_hi)]
  have hlen : (Nat.digits 10 n).length = k + 1 := by
    rw [Nat.digits_len 10 n (by norm_num) (by omega)]
  have hbds : g10bds a = ((natDigits (10 ^ (9 - k) * n)).dropWhile (· == 0)).reverse := by
    unfold g10bds
    rw [hAux]
    rfl
  have hpadded : g10padded a = (Nat.digits 10 n).reverse := by
    unfold g10padded
    rw [hbds, hAux]
    simp only [Int.toNat_natCast]
    exact strip_pad_digits n (by omega) k (9 - k) hlen
  unfold g10mag
  rw [if_neg (ne_of_gt ha_pos), hAux, hpadded]
  have hks : (-4 : ℤ) ≤ ((N : ℤ), (k : ℤ)).2 ∧ ((N : ℤ), (k : ℤ)).2 < 10 := by
    constructor <;> simp <;> omega
  rw [if_pos hks, if_pos (by simp : (0 : ℤ) ≤ ((N : ℤ), (k : ℤ)).2)]
  have htn : (((N : ℤ), (k : ℤ)).2).toNat + 1 = k + 1 := by simp
  rw [htn]
  rw [List.take_of_length_le (by rw [List.length_reverse, hlen]),
    List.drop_eq_nil_of_le (by rw [List.length_reverse, hlen])]
  rw [natStr_eq n (by omega)]
  simp only [List.isEmpty_nil, if_pos]
  unfold digitsToStr
  exact mk_append_nil _

/-- Rendering of `%.10g` near an integer, carry case: `a` sits just below
the power of ten `10 ^ k`, the rounding carries into an eleventh digit and
is renormalized. -/
theorem g10mag_pow (k : ℕ) (hk : k ≤ 9) (a : ℚ)
    (hlo : ((10 ^ k : ℕ) : ℚ) - 1/10^12 < a) (hhi : a < ((10 ^ k : ℕ) : ℚ)) :
    g10mag a = natStr (10 ^ k) := by
  have hcast : ((10 ^ k : ℕ) : ℚ) = (10 : ℚ) ^ k := by push_cast; rfl
  rw [hcast] at hlo hhi
  have hpk1 : (1 : ℚ) ≤ (10 : ℚ) ^ k := one_le_pow₀ (by norm_num)
  have ha_pos : 0 < a := by
    have : (1 : ℚ) / 10 ^ 12 < 1 := by norm_num
    linarith
  have he0 : Int.log 10 a = (k : ℤ) - 1 := by
    refine int_log_eq ha_pos ?_ ?_
    · rw [zpow_sub₀ (by norm_num), zpow_one, zpow_natCast]
      nlinarith
    · rw [show (k : ℤ) - 1 + 1 = (k : ℤ) by ring, zpow_natCast]
      exact hhi
  have hzpow : qzpow 10 (9 - Int.log 10 a) = (10 : ℚ) ^ (10 - k : ℕ) := by
    rw [qzpow_eq, he0, show (9 : ℤ) - ((k : ℤ) - 1) = ((10 - k : ℕ) : ℤ) by omega,
      zpow_natCast]
  have hpow_pos : (0 : ℚ) < 10 ^ (10 - k : ℕ) := by positivity
  have hpow_le : (10 : ℚ) ^ (10 - k : ℕ) ≤ 10 ^ (10 : ℕ) :=
    pow_le_pow_right₀ (by norm_num) (by omega)
  have hprod : (10 : ℚ) ^ k * 10 ^ (10 - k : ℕ) = 10 ^ (10 : ℕ) := by
    rw [← pow_add]
    congr 1
    omega
  have hround : roundHE (a * (10 : ℚ) ^ (10 - k : ℕ)) = ((10 : ℤ) ^ 10) := by
    apply roundHE_eq_right
    · have h1 : ((10 : ℚ) ^ k - 1 / 10 ^ 12) * 10 ^ (10 - k : ℕ) < a * 10 ^ (10 - k : ℕ) :=
        mul_lt_mul_of_pos_right hlo hpow_pos
    
      have h2 : (1 : ℚ) / 10 ^ 12 * 10 ^ (10 - k : ℕ) ≤ 1 / 100 := by
        calc (1 : ℚ) / 10 ^ 12 * 10 ^ (10 - k : ℕ) ≤ 1 / 10 ^ 12 * 10 ^ (10 : ℕ) :=
              mul_le_mul_of_nonneg_left hpow_le (by norm_num)
          _ = 1 / 100 := by norm_num
      push_cast
      nlinarith [h1, h2, hprod]
    · have h1 : a * 10 ^ (10 - k : ℕ) < (10 : ℚ) ^ k * 10 ^ (10 - k : ℕ) :=
        mul_lt_mul_of_pos_right hhi hpow_pos
      push_cast
      rw [hprod] at h1
      linarith
  have hAux : g10Aux a = ((10 : ℤ) ^ 9, (k : ℤ)) := by
    unfold g10Aux
    rw [hzpow, hround, he0]
    rw [if_pos rfl]
    congr 1
    ring
  have hdig9 : natDigits ((10 : ℤ) ^ 9).toNat = List.replicate 9 0 ++ [1] := by
    rw [show ((10 : ℤ) ^ 9).toNat = 10 ^ 9 * 1 from by norm_num; rfl, natDigits_eq,
      Nat.digits_base_pow_mul (by norm_num) (by norm_num)]
    norm_num
  have hbds : g10bds a = [1] := by
    unfold g10bds
    rw [hAux, hdig9, dropWhile_zeros]
    rfl
  have hpadded : g10padded a = 1 :: List.replicate k 0 := by
    unfold g10padded
    rw [hbds, hAux]
    simp only [Int.toNat_natCast, List.length_singleton]
    rw [show k + 1 - 1 = k by omega]
    rfl
  have hdigk : (Nat.digits 10 (10 ^ k)).reverse = 1 :: List.replicate k 0 := by
    rw [show (10 : ℕ) ^ k = 10 ^ k * 1 from by ring, Nat.digits_base_pow_mul
      (by norm_num) (by norm_num)]
    norm_num [List.reverse_append, List.reverse_replicate]
  unfold g10mag
  rw [if_neg (ne_of_gt ha_pos), hAux, hpadded]
  have hks : (-4 : ℤ) ≤ (((10 : ℤ) ^ 9, (k : ℤ)) : ℤ × ℤ).2 ∧
      (((10 : ℤ) ^ 9, (k : ℤ)) : ℤ × ℤ).2 < 10 := by
    constructor <;> simp <;> omega
  rw [if_pos hks, if_pos (by simp : (0 : ℤ) ≤ (((10 : ℤ) ^ 9, (k : ℤ)) : ℤ × ℤ).2)]
  have htn : ((((10 : ℤ) ^ 9, (k : ℤ)) : ℤ × ℤ).2).toNat + 1 = k + 1 := by simp
  rw [htn]
  have hlenp : (1 :: List.replicate k 0).length = k + 1 := by
    simp [List.length_replicate]
  rw [List.take_of_length_le (le_of_eq hlenp), List.drop_eq_nil_of_le (le_of_eq hlenp)]
  rw [natStr_eq (10 ^ k) (by positivity), hdigk]
  simp only [List.isEmpty_nil, if_pos]
  unfold digitsToStr
  exact mk_append_nil _

/-- Rendering of `%.10g` within `1e-12` of a positive integer `n ≤ 10^9`. -/
theorem g10mag_near (n : ℕ) (hn1 : 1 ≤ n) (hn9 : n ≤ 10 ^ 9) (a : ℚ)
    (hlo : (n : ℚ) - 1/10^12 < a) (hhi : a < (n : ℚ) + 1/10^12) :
    g10mag a = natStr n := by
  by_cases hc : a < (n : ℚ) ∧ n = 10 ^ Nat.log 10 n
  · obtain ⟨hc1, hc2⟩ := hc
    rw [hc2]
    have hk9 : Nat.log 10 n ≤ 9 := by
      have h1 : Nat.log 10 n ≤ Nat.log 10 (10 ^ 9) := Nat.log_mono_right hn9
      rwa [Nat.log_pow (by norm_num)] at h1
    refine g10mag_pow (Nat.log 10 n) hk9 a ?_ ?_
    · rw [← hc2]
      exact hlo
    · rw [← hc2]
      exact hc1
  · exact g10mag_generic n hn1 hn9 a hlo hhi hc

/-- Prepending the empty string. -/
theorem empty_append_str (s : String) : "" ++ s = s := by
  obtain ⟨l⟩ := s
  show String.mk ([] ++ l) = String.mk l
  rw [List.nil_append]

/-- `%.10g` of a double within `1e-12` of a nonzero integer `n` with
`|n| ≤ 10^9` renders the plain decimal string of `n`. -/
theorem formatG10_near_int (n : ℤ) (hn0 : n ≠ 0) (hn : |n| ≤ 10 ^ 9) {q : ℚ}
    (h : |q - n| < 1/10^12) : formatG10 q = strInt n := by
  rw [abs_sub_lt_iff] at h
  obtain ⟨h1, h2⟩ := h
  have hM1 : 1 ≤ n.natAbs := Int.natAbs_pos.mpr hn0
  have hM9 : n.natAbs ≤ 10 ^ 9 := by
    have h3 : ((n.natAbs : ℤ)) = |n| := (Int.abs_eq_natAbs n).symm
    omega
  have hMq : ((n.natAbs : ℕ) : ℚ) = |(n : ℚ)| := by
    rw [Int.cast_natAbs]
    push_cast
    rfl
  rcases lt_or_gt_of_ne hn0 with hneg | hpos
  · have hnq : (n : ℚ) < 0 := by exact_mod_cast hneg
    have hnq1 : (n : ℚ) ≤ -1 := by
      have h3 : n ≤ -1 := by omega
      exact_mod_cast h3
    have hq_neg : q < 0 := by
      have h3 : (1 : ℚ) / 10 ^ 12 < 1 := by norm_num
      linarith
    unfold formatG10
    rw [if_pos hq_neg, abs_of_neg hq_neg]
    unfold strInt
    rw [if_pos hneg]
    apply congrArg (String.append "-")
    apply g10mag_near n.natAbs hM1 hM9
    · rw [hMq, abs_of_neg hnq]
      linarith
    · rw [hMq, abs_of_neg hnq]
      linarith
  · have hnq : (0 : ℚ) < (n : ℚ) := by exact_mod_cast hpos
    have hnq1 : (1 : ℚ) ≤ (n : ℚ) := by
      have h3 : 1 ≤ n := by omega
      exact_mod_cast h3
    have hq_pos : 0 < q := by
      have h3 : (1 : ℚ) / 10 ^ 12 < 1 := by norm_num
      linarith
    unfold formatG10
    rw [if_neg (not_lt.mpr (le_of_lt hq_pos)), abs_of_pos hq_pos]
    unfold strInt
    rw [if_neg (not_lt.mpr (le_of_lt hpos))]
    rw [empty_append_str]
    apply g10mag_near n.natAbs hM1 hM9
    · rw [hMq, abs_of_pos hnq]
      linarith
    · rw [hMq, abs_of_pos hnq]
      linarith

/-! ## C8 -/

/-- C8: on every (finite) double value, `format_result` obeys the claimed
three-branch rule: scientific notation (6 fractional digits) when
`|value| > 1e15` or `0 < |value| < 1e-4`; otherwise, when `value` is
within `1e-12` of its nearest integer, a plain integer string (no decimal
point, no exponent — rendered as `strInt` of that nearest integer);
otherwise the 10-significant-digit general format.  The middle branch
needs the value to be a genuine double: the source tests proximity to
`int(value)` (truncation), and for a double within `1e-12` of an integer
the two agree, or the value is so small that `%.10g` rounds back to that
integer anyway. -/
theorem c8_format_rule (q : ℚ) (hq : FloatRepr q) :
    (sciCond q → format_result (.finite q) = .ok (formatE6q q))
    ∧ (¬sciCond q → nearIntCond q →
        format_result (.finite q) = .ok (strInt (round q)))
    ∧ (¬sciCond q → ¬nearIntCond q →
        format_result (.finite q) = .ok (formatG10 q)) := by
  have hfmt : format_result (.finite q) =
      .ok (if (10 : ℚ) ^ 15 < |q| ∨ (|q| < 1 / 10 ^ 4 ∧ q ≠ 0) then formatE6q q
           else if |q - (pytrunc q : ℚ)| < 1 / 10 ^ 12 then strInt (pytrunc q)
           else formatG10 q) := rfl
  refine ⟨?_, ?_, ?_⟩
  · intro hs
    have hs' : (10 : ℚ) ^ 15 < |q| ∨ (|q| < 1 / 10 ^ 4 ∧ q ≠ 0) := hs
    rw [hfmt, if_pos hs']
  · intro hs hnear
    have hs' : ¬((10 : ℚ) ^ 15 < |q| ∨ (|q| < 1 / 10 ^ 4 ∧ q ≠ 0)) := hs
    by_cases hcode : |q - (pytrunc q : ℚ)| < 1 / 10 ^ 12
    · rw [hfmt, if_neg hs', if_pos hcode, (nearIntCond_of_code q hcode).2]
    · rw [hfmt, if_neg hs', if_neg hcode]
      have hclose : |q - (round q : ℚ)| < 1 / 10 ^ 12 := hnear
      have hqn : q ≠ ((round q : ℤ) : ℚ) := by
        intro he
        apply hcode
        rw [he, pytrunc_intCast]
        simp only [sub_self, abs_zero]
        positivity
      have habs : |q| < 9008 := floatRepr_bound hq hqn hclose
      have hn0 : (round q : ℤ) ≠ 0 := by
        intro h0
        apply hs
        right
        have hq0 : q ≠ 0 := by
          intro he
          apply hqn
          rw [h0, he]
          norm_num
        refine ⟨?_, hq0⟩
        have h1 : |q| < 1 / 10 ^ 12 := by
          have := hclose
          rw [h0] at this
          simpa using this
        linarith [show (1 : ℚ) / 10 ^ 12 < 1 / 10 ^ 4 by norm_num]
      have hbnd : |round q| ≤ 10 ^ 9 := by
        have h1 : |((round q : ℤ) : ℚ)| ≤ |q| + |q - round q| := by
          have h2 : ((round q : ℤ) : ℚ) = q - (q - round q) := by ring
          calc |((round q : ℤ) : ℚ)| = |q - (q - round q)| := by rw [← h2]
            _ ≤ |q| + |q - round q| := abs_sub _ _
        have h3 : |((round q : ℤ) : ℚ)| < 9009 := by
          have hd : |q - (round q : ℚ)| < 1 := lt_trans hclose (by norm_num)
          linarith
        have h4 : ((|round q| : ℤ) : ℚ) < 9009 := by
          rw [Int.cast_abs]
          exact h3
        have h5 : |round q| < (9009 : ℤ) := by exact_mod_cast h4
        omega
      rw [formatG10_near_int (round q) hn0 hbnd hclose]
  · intro hs hnear
    have hs' : ¬((10 : ℚ) ^ 15 < |q| ∨ (|q| < 1 / 10 ^ 4 ∧ q ≠ 0)) := hs
    have hcode : ¬(|q - (pytrunc q : ℚ)| < 1 / 10 ^ 12) := fun hc =>
      hnear (nearIntCond_of_code q hc).1
    rw [hfmt, if_neg hs', if_neg hcode]

/-- C8 (witness): the branch rule applied at `4.0` and `180.0` yields the
plain integer strings `"4"` and `"180"`. -/
theorem c8_witness :
    FloatRepr 4 ∧ ¬sciCond 4 ∧ nearIntCond 4 ∧
    format_result (.finite 4) = .ok "4" ∧
    FloatRepr 180 ∧ ¬sciCond 180 ∧ nearIntCond 180 ∧
    format_result (.finite 180) = .ok "180" := by
  have hr4 : round (4 : ℚ) = 4 := by
    rw [show (4 : ℚ) = ((4 : ℤ) : ℚ) by norm_num, round_intCast]
  have hr180 : round (180 : ℚ) = 180 := by
    rw [show (180 : ℚ) = ((180 : ℤ) : ℚ) by norm_num, round_intCast]
  have h4 : FloatRepr 4 := ⟨4, 0, by norm_num, by norm_num⟩
  have h180 : FloatRepr 180 := ⟨180, 0, by norm_num, by norm_num⟩
  have hs4 : ¬sciCond 4 := by
    unfold sciCond
    push_neg
    norm_num
  have hs180 : ¬sciCond 180 := by
    unfold sciCond
    push_neg
    norm_num
  have hn4 : nearIntCond 4 := by
    unfold nearIntCond
    rw [hr4]
    norm_num
  have hn180 : nearIntCond 180 := by
    unfold nearIntCond
    rw [hr180]
    norm_num
  refine ⟨h4, hs4, hn4, ?_, h180, hs180, hn180, ?_⟩
  · rw [(c8_format_rule 4 h4).2.1 hs4 hn4, hr4]
    rfl
  · rw [(c8_format_rule 180 h180).2.1 hs180 hn180, hr180]
    rfl

end SimpleCalc
